import Mathlib

/-!
Verification development for the xilem repository's incremental update pipeline.

Two subsystems are embedded from the source:

* the Compose pass (`src/masonry/src/passes/compose.rs`): the recursive
  traversal `compose_widget` / `recurse_on_children` over the widget arena,
  recomputing absolute window origins and consuming dirty flags; and
* the action-mapping combinator (`src/xilem_core/src/views/map_task.rs`):
  the `MapAction` view and its `build` / `rebuild` / `teardown` / `message`
  operations.

Embedding conventions:
* `f64` coordinates are embedded as `Int`: the pass only ever adds exact
  coordinate values, and every claim instantiates them at small integers.
  `kurbo::Point` and `kurbo::Vec2` are both embedded as `Vec2` (the source
  converts between them with `to_vec2` / `to_point`, which are coordinate
  identities).
* Rust panics (`unwrap_or_else(|| panic!(...))`) are embedded as the
  `Except` error channel, carrying the same diagnostic data the panic
  message formats (parent type name, parent id, child id).
* The widget arena is hierarchical (children slots are nested under their
  parent, looked up by raw id), so it is embedded as two parallel nested
  trees of association lists: `WTree` for the `Box<dyn Widget>` slots and
  `STree` for the `WidgetState` slots, mirroring the separate
  `widget.children` / `state.children` lookups in `recurse_on_children`.
* Widgets' own `compose` hooks are external collaborators (spec section 6);
  they are embedded as logged invocations with no state effect, and the
  traversal additionally logs the path of every node it visits.
* Recursion through the arena is fuel-indexed; `root_compose` always runs
  with fuel at least the tree depth, and fuel exhaustion is a separate
  error constructor that the theorems never hit.
-/

/-- Two-dimensional vector with exact integer coordinates (embeds both
`kurbo::Vec2` and `kurbo::Point`). -/
structure Vec2 where
  x : Int
  y : Int
deriving Repr, DecidableEq

instance : Add Vec2 := ⟨fun a b => ⟨a.x + b.x, a.y + b.y⟩⟩

theorem Vec2.add_def (a b : Vec2) : a + b = ⟨a.x + b.x, a.y + b.y⟩ := rfl

/-- The fields of `masonry`'s `WidgetState` that the compose pass reads or
writes: geometry (`origin`, `translation`, `window_origin`) and the three
compose-related dirty flags, plus the node's `id` (used in diagnostics). -/
structure WidgetState where
  id : Nat
  origin : Vec2
  translation : Vec2
  window_origin : Vec2
  needs_compose : Bool
  request_compose : Bool
  translation_changed : Bool
deriving Repr, DecidableEq

/-- Widget-slot side of the arena: a widget's diagnostic type name, the ids
its `children_ids()` enumeration declares, and its actual children slots. -/
inductive WTree : Type where
  | node (typeName : String) (childrenIds : List Nat) (children : List (Nat × WTree))

/-- State-slot side of the arena: a `WidgetState` record and the state slots
of the node's children. -/
inductive STree : Type where
  | node (item : WidgetState) (children : List (Nat × STree))

def WTree.typeName : WTree → String
  | .node tn _ _ => tn

def WTree.childrenIds : WTree → List Nat
  | .node _ cids _ => cids

def WTree.children : WTree → List (Nat × WTree)
  | .node _ _ ch => ch

def STree.item : STree → WidgetState
  | .node i _ => i

def STree.children : STree → List (Nat × STree)
  | .node _ ch => ch

/-- Arena child lookup by raw id (`get_child_mut`). -/
def assocGet {α : Type} : List (Nat × α) → Nat → Option α
  | [], _ => none
  | (k, v) :: rest, key => if k = key then some v else assocGet rest key

/-- Write back a child slot by raw id (the in-place mutation of a child the
pass performs through its `ArenaMut` handle). Keys are left unchanged. -/
def assocSet {α : Type} : List (Nat × α) → Nat → α → List (Nat × α)
  | [], _, _ => []
  | (k, v) :: rest, key, nv =>
      if k = key then (k, nv) :: rest else (k, v) :: assocSet rest key nv

/-- Observable trace of one pass: the arena paths (sequences of child ids
from the pass root) of every node visited, in visit order, and of every node
whose own compose hook was invoked. -/
structure Logs where
  visited : List (List Nat)
  composed : List (List Nat)
deriving Repr, DecidableEq

def Logs.append (a b : Logs) : Logs :=
  ⟨a.visited ++ b.visited, a.composed ++ b.composed⟩

/-- Re-root a child's trace under the child's id. -/
def Logs.nest (cid : Nat) (l : Logs) : Logs :=
  ⟨l.visited.map (cid :: ·), l.composed.map (cid :: ·)⟩

/-- Outcome of the panic in `recurse_on_children`: a child id declared by
`children_ids()` has no widget slot or no state slot; carries the parent's
type name, the parent's id and the missing child id, exactly the data the
panic message formats. `outOfFuel` is an artifact of the fuel-indexed
embedding and never occurs at sufficient fuel. -/
inductive ComposeError : Type where
  | missingChild (parentName : String) (parentId : Nat) (childId : Nat)
  | outOfFuel
deriving Repr, DecidableEq

/-- Modelled from the spec: `WidgetState::merge_up` is not under `src/`
(only its call sites are). The spec says merge-up is "upward propagation of
a child's post-pass dirty state into its parent's state via logical-OR"
over the propagating flags; geometry fields are the parent's own. -/
def mergeUp (parent child : WidgetState) : WidgetState :=
  { parent with
    needs_compose := parent.needs_compose || child.needs_compose,
    request_compose := parent.request_compose || child.request_compose,
    translation_changed := parent.translation_changed || child.translation_changed }

/-- The loop of `recurse_on_children` fused with the callback body of
`compose_widget`: for each declared child id in order, look up the widget
slot then the state slot (panic — error — if either is absent), skip the
child unless `moved || translation_changed || needs_compose`, otherwise
recurse (`recur` is the compose of the child at one fuel less) and merge
the child's post-state up into the accumulated parent state. -/
def composeChildrenAux
    (recur : WTree → STree → Bool → Vec2 → Except ComposeError (STree × Logs))
    (tn : String) (pid : Nat) (wch : List (Nat × WTree))
    (moved : Bool) (translation : Vec2) :
    List Nat → WidgetState → List (Nat × STree) →
    Except ComposeError (WidgetState × List (Nat × STree) × Logs)
  | [], item, sch => .ok (item, sch, ⟨[], []⟩)
  | cid :: rest, item, sch =>
    match assocGet wch cid with
    | none => .error (.missingChild tn pid cid)
    | some wc =>
      match assocGet sch cid with
      | none => .error (.missingChild tn pid cid)
      | some sc =>
        if !moved && !sc.item.translation_changed && !sc.item.needs_compose then
          composeChildrenAux recur tn pid wch moved translation rest item sch
        else
          match recur wc sc moved translation with
          | .error e => .error e
          | .ok (sc', clogs) =>
            match composeChildrenAux recur tn pid wch moved translation rest
                (mergeUp item sc'.item) (assocSet sch cid sc') with
            | .error e => .error e
            | .ok (item', sch', logs') =>
                .ok (item', sch', Logs.append (Logs.nest cid clogs) logs')

/-- One visit of `compose_widget`, parametric in the recursive call used for
children: compute `moved` and the accumulated `translation`, write
`window_origin`, invoke the compose hook iff `request_compose` (logged),
clear the three flags, then walk the declared children. -/
def composeNode
    (recur : WTree → STree → Bool → Vec2 → Except ComposeError (STree × Logs))
    (w : WTree) (s : STree) (parentMoved : Bool) (parentTranslation : Vec2) :
    Except ComposeError (STree × Logs) :=
  match w, s with
  | .node tn cids wch, .node item sch =>
    let moved := parentMoved || item.translation_changed
    let translation := parentTranslation + item.translation + item.origin
    let composedHere : List (List Nat) := if item.request_compose then [[]] else []
    let item1 : WidgetState :=
      { item with
        window_origin := translation,
        needs_compose := false,
        request_compose := false,
        translation_changed := false }
    match composeChildrenAux recur tn item.id wch moved translation cids item1 sch with
    | .error e => .error e
    | .ok (item2, sch2, clogs) =>
        .ok (.node item2 sch2, ⟨[] :: clogs.visited, composedHere ++ clogs.composed⟩)

/-- Embeds `compose_widget`, fuel-indexed. -/
def composeWidget : Nat → WTree → STree → Bool → Vec2 →
    Except ComposeError (STree × Logs)
  | 0, _, _, _, _ => .error .outOfFuel
  | Nat.succ fuel, w, s, pm, pt => composeNode (composeWidget fuel) w s pm pt

/-- Follow a path of child ids down the state tree. -/
def STree.getPath : STree → List Nat → Option STree
  | s, [] => some s
  | .node _ ch, cid :: rest =>
    match assocGet ch cid with
    | some c => c.getPath rest
    | none => none

/-- Sum of `translation + origin` contributions of every node along a path,
endpoint included. -/
def pathContrib : STree → List Nat → Option Vec2
  | .node item _, [] => some (item.translation + item.origin)
  | .node item ch, cid :: rest =>
    match assocGet ch cid with
    | some c => (pathContrib c rest).map (fun v => item.translation + item.origin + v)
    | none => none

/-- Well-formed widget slots: every node's declared child-id enumeration has
no duplicates (the `children_ids()` contract). -/
inductive WTree.Wf : WTree → Prop where
  | node {tn : String} {cids : List Nat} {ch : List (Nat × WTree)} :
      cids.Nodup → (∀ p, p ∈ ch → WTree.Wf p.2) → WTree.Wf (WTree.node tn cids ch)

/-! ## Concrete trees for the flag-propagation scenario (claim C2)

Tree `R → A → B` (ids 0, 1, 2), all local origins and translations zero
except `B.translation = (3, 4)`; only `B.translation_changed` is set.
The amended variant additionally sets `A.needs_compose` (the flag the
flag-raising machinery propagates to ancestors) and gives `R` a sibling
child `S` (id 3) and `A` a sibling child `T` (id 4), both with all flags
clear, to observe that sibling subtrees are skipped. -/

def c2StB : WidgetState :=
  { id := 2, origin := ⟨0, 0⟩, translation := ⟨3, 4⟩, window_origin := ⟨0, 0⟩,
    needs_compose := false, request_compose := false, translation_changed := true }

def c2StA : WidgetState :=
  { id := 1, origin := ⟨0, 0⟩, translation := ⟨0, 0⟩, window_origin := ⟨0, 0⟩,
    needs_compose := false, request_compose := false, translation_changed := false }

def c2StR : WidgetState :=
  { id := 0, origin := ⟨0, 0⟩, translation := ⟨0, 0⟩, window_origin := ⟨0, 0⟩,
    needs_compose := false, request_compose := false, translation_changed := false }

def c2StS : WidgetState := { c2StA with id := 3 }
def c2StT : WidgetState := { c2StA with id := 4 }

def c2W : WTree := .node "R" [1] [(1, .node "A" [2] [(2, .node "B" [] [])])]
def c2S : STree := .node c2StR [(1, .node c2StA [(2, .node c2StB [])])]

def c2W' : WTree :=
  .node "R" [1, 3]
    [(1, .node "A" [2, 4] [(2, .node "B" [] []), (4, .node "T" [] [])]),
     (3, .node "S" [] [])]

def c2S' : STree :=
  .node c2StR
    [(1, .node { c2StA with needs_compose := true }
        [(2, .node c2StB []), (4, .node c2StT [])]),
     (3, .node c2StS [])]

/-- Claim C2, counterexample: in the claim's own scenario — tree R → A → B
with only `B.translation_changed = true` and every other flag on every node
clear — the pass visits only R (visited paths `[[]]`, not R, A, B), leaves
`B.window_origin` at `(0, 0)` instead of `(3, 4)`, and does not clear
`B.translation_changed`: the skip test `!moved && !translation_changed &&
!needs_compose` already fires at A, because nothing set `needs_compose` on
the leaf's ancestors. -/
theorem claim_c2_counterexample :
    (composeWidget 5 c2W c2S false ⟨0, 0⟩).map
        (fun r => (r.2.visited,
          (r.1.getPath [1, 2]).map (fun t =>
            (t.item.window_origin, t.item.translation_changed)))) =
      .ok ([[]], some (⟨0, 0⟩, true)) := by
  rfl

/-- Claim C2, amended: the scenario only reaches the leaf when the leaf's
strict ancestors below the pass root also carry `needs_compose` (the flag
the flag-raising machinery sets on ancestors). With `A.needs_compose = true`
added — and siblings S (of A, id 3) and T (of B, id 4) present with all
flags clear — the pass visits exactly R, A, B in that order (paths `[]`,
`[1]`, `[1, 2]`), invokes no compose hook, sets `B.window_origin = (3, 4)`,
clears B's flags, and neither visits nor changes the sibling subtrees S and
T. -/
theorem claim_c2_amended :
    (composeWidget 5 c2W' c2S' false ⟨0, 0⟩).map
        (fun r => (r.2.visited, r.2.composed,
          (r.1.getPath [1, 2]).map STree.item,
          (r.1.getPath [3]).map STree.item,
          (r.1.getPath [1, 4]).map STree.item)) =
      .ok ([[], [1], [1, 2]], [],
        some { id := 2, origin := ⟨0, 0⟩, translation := ⟨3, 4⟩,
               window_origin := ⟨3, 4⟩, needs_compose := false,
               request_compose := false, translation_changed := false },
        some c2StS, some c2StT) := by
  rfl

/-! ## Helper lemmas about the embedding's building blocks -/

theorem Vec2.add_assoc' (a b c : Vec2) : a + b + c = a + (b + c) := by
  simp only [Vec2.add_def]
  congr 1 <;> ring

/-- All three compose flags clear (the post-visit state of a node). -/
def flagsClear (a : WidgetState) : Prop :=
  a.needs_compose = false ∧ a.request_compose = false ∧ a.translation_changed = false

/-- Flag implication order: every set flag of `a` is set in `b` ("a dirty
flag, once merged into a parent, must not be lost"). -/
def flagLe (a b : WidgetState) : Prop :=
  (a.needs_compose = true → b.needs_compose = true) ∧
  (a.request_compose = true → b.request_compose = true) ∧
  (a.translation_changed = true → b.translation_changed = true)

theorem flagLe_refl (a : WidgetState) : flagLe a a :=
  ⟨id, id, id⟩

theorem flagLe_trans {a b c : WidgetState} (h1 : flagLe a b) (h2 : flagLe b c) :
    flagLe a c :=
  ⟨fun h => h2.1 (h1.1 h), fun h => h2.2.1 (h1.2.1 h), fun h => h2.2.2 (h1.2.2 h)⟩

theorem mergeUp_window_origin (p c : WidgetState) :
    (mergeUp p c).window_origin = p.window_origin := rfl

theorem mergeUp_translation (p c : WidgetState) :
    (mergeUp p c).translation = p.translation := rfl

theorem mergeUp_origin (p c : WidgetState) :
    (mergeUp p c).origin = p.origin := rfl

theorem mergeUp_id (p c : WidgetState) : (mergeUp p c).id = p.id := rfl

theorem flagLe_mergeUp_left (p c : WidgetState) : flagLe p (mergeUp p c) := by
  refine ⟨fun h => ?_, fun h => ?_, fun h => ?_⟩ <;> simp [mergeUp, h]

theorem flagLe_mergeUp_right (p c : WidgetState) : flagLe c (mergeUp p c) := by
  refine ⟨fun h => ?_, fun h => ?_, fun h => ?_⟩ <;> simp [mergeUp, h]

theorem flagsClear_mergeUp {p c : WidgetState} (hp : flagsClear p)
    (hc : flagsClear c) : flagsClear (mergeUp p c) := by
  obtain ⟨h1, h2, h3⟩ := hp
  obtain ⟨g1, g2, g3⟩ := hc
  exact ⟨by simp [mergeUp, h1, g1], by simp [mergeUp, h2, g2], by simp [mergeUp, h3, g3]⟩

theorem assocGet_assocSet {α : Type} (l : List (Nat × α)) (k : Nat) (nv : α)
    (k' : Nat) :
    assocGet (assocSet l k nv) k' =
      if k' = k then (assocGet l k).map (fun _ => nv) else assocGet l k' := by
  induction l with
  | nil =>
    by_cases h : k' = k <;> simp [assocGet, assocSet, h]
  | cons hd tl ih =>
    obtain ⟨hk, hv⟩ := hd
    by_cases h1 : hk = k
    · subst h1
      by_cases h2 : k' = hk
      · simp [assocGet, assocSet, h2]
      · have h2' : ¬ hk = k' := fun hh => h2 hh.symm
        simp [assocGet, assocSet, h2, h2']
    · by_cases h2 : hk = k'
      · subst h2
        have h1' : ¬ hk = k := h1
        have h1'' : ¬ (hk : Nat) = k := h1
        simp [assocGet, assocSet, h1', h1'', ih]
      · simp [assocGet, assocSet, h1, h2, ih]

theorem assocGet_mem {α : Type} {l : List (Nat × α)} {k : Nat} {v : α}
    (h : assocGet l k = some v) : (k, v) ∈ l := by
  induction l with
  | nil => simp [assocGet] at h
  | cons hd tl ih =>
    obtain ⟨hk, hv⟩ := hd
    by_cases h1 : hk = k
    · subst h1
      simp [assocGet] at h
      simp [h]
    · simp [assocGet, h1] at h
      exact List.mem_cons_of_mem _ (ih h)

/-- Inversion of one successful step of the children loop: the head child's
widget and state slots were found, and either the skip test fired and the
loop continued unchanged, or the child was recursed into and its result
merged and written back. -/
theorem aux_cons_ok
    {recur : WTree → STree → Bool → Vec2 → Except ComposeError (STree × Logs)}
    {tn : String} {pid : Nat} {wch : List (Nat × WTree)} {moved : Bool}
    {translation : Vec2} {cid : Nat} {rest : List Nat} {item : WidgetState}
    {sch : List (Nat × STree)} {item' : WidgetState}
    {sch' : List (Nat × STree)} {logs : Logs}
    (h : composeChildrenAux recur tn pid wch moved translation (cid :: rest)
        item sch = .ok (item', sch', logs)) :
    ∃ wc sc, assocGet wch cid = some wc ∧ assocGet sch cid = some sc ∧
      (((!moved && !sc.item.translation_changed && !sc.item.needs_compose) = true ∧
         composeChildrenAux recur tn pid wch moved translation rest item sch =
           .ok (item', sch', logs)) ∨
       ((!moved && !sc.item.translation_changed && !sc.item.needs_compose) = false ∧
        ∃ sc' clogs logs',
          recur wc sc moved translation = .ok (sc', clogs) ∧
          composeChildrenAux recur tn pid wch moved translation rest
            (mergeUp item sc'.item) (assocSet sch cid sc') =
              .ok (item', sch', logs') ∧
          logs = Logs.append (Logs.nest cid clogs) logs')) := by
  simp only [composeChildrenAux] at h
  split at h
  next hwc => exact absurd h (by simp)
  next wc hwc =>
    split at h
    next hsc => exact absurd h (by simp)
    next sc hsc =>
      refine ⟨wc, sc, hwc, hsc, ?_⟩
      split at h
      next hskip => exact Or.inl ⟨hskip, h⟩
      next hskip =>
        split at h
        next e hrec => exact absurd h (by simp)
        next sc' clogs hrec =>
          split at h
          next e haux => exact absurd h (by simp)
          next item2 sch2 logs2 haux =>
            simp only [Except.ok.injEq, Prod.mk.injEq] at h
            obtain ⟨rfl, rfl, rfl⟩ := h
            exact Or.inr ⟨by simpa using hskip, sc', clogs, logs2, hrec, haux, rfl⟩

/-- Inversion of the empty children loop. -/
theorem aux_nil_ok
    {recur : WTree → STree → Bool → Vec2 → Except ComposeError (STree × Logs)}
    {tn : String} {pid : Nat} {wch : List (Nat × WTree)} {moved : Bool}
    {translation : Vec2} {item : WidgetState} {sch : List (Nat × STree)}
    {item' : WidgetState} {sch' : List (Nat × STree)} {logs : Logs}
    (h : composeChildrenAux recur tn pid wch moved translation [] item sch =
        .ok (item', sch', logs)) :
    item' = item ∧ sch' = sch ∧ logs = ⟨[], []⟩ := by
  simp only [composeChildrenAux, Except.ok.injEq, Prod.mk.injEq] at h
  exact ⟨h.1.symm, h.2.1.symm, h.2.2.symm⟩

/-- The children loop never touches a state slot whose key is not declared. -/
theorem aux_untouched
    {recur : WTree → STree → Bool → Vec2 → Except ComposeError (STree × Logs)}
    {tn : String} {pid : Nat} {wch : List (Nat × WTree)} {moved : Bool}
    {translation : Vec2} :
    ∀ {cids : List Nat} {item : WidgetState} {sch : List (Nat × STree)}
      {item' : WidgetState} {sch' : List (Nat × STree)} {logs : Logs},
      composeChildrenAux recur tn pid wch moved translation cids item sch =
        .ok (item', sch', logs) →
      ∀ k, k ∉ cids → assocGet sch' k = assocGet sch k := by
  intro cids
  induction cids with
  | nil =>
    intro item sch item' sch' logs h k _
    obtain ⟨_, rfl, _⟩ := aux_nil_ok h
    rfl
  | cons cid rest ih =>
    intro item sch item' sch' logs h k hk
    obtain ⟨wc, sc, hwc, hsc, hcase⟩ := aux_cons_ok h
    have hkrest : k ∉ rest := fun hmem => hk (List.mem_cons_of_mem _ hmem)
    rcases hcase with ⟨hskip, h2⟩ | ⟨hvisit, sc', clogs, logs', hrec, h2, rfl⟩
    · exact ih h2 k hkrest
    · have hne : k ≠ cid := fun he => hk (he ▸ List.mem_cons_self _ _)
      rw [ih h2 k hkrest, assocGet_assocSet]
      simp [hne]

/-- The children loop changes the accumulated parent state only by OR-ing
flags into it: geometry and id are untouched, and no set flag is lost. -/
theorem aux_item_props
    {recur : WTree → STree → Bool → Vec2 → Except ComposeError (STree × Logs)}
    {tn : String} {pid : Nat} {wch : List (Nat × WTree)} {moved : Bool}
    {translation : Vec2} :
    ∀ {cids : List Nat} {item : WidgetState} {sch : List (Nat × STree)}
      {item' : WidgetState} {sch' : List (Nat × STree)} {logs : Logs},
      composeChildrenAux recur tn pid wch moved translation cids item sch =
        .ok (item', sch', logs) →
      item'.window_origin = item.window_origin ∧
      item'.translation = item.translation ∧
      item'.origin = item.origin ∧ item'.id = item.id ∧ flagLe item item' := by
  intro cids
  induction cids with
  | nil =>
    intro item sch item' sch' logs h
    obtain ⟨rfl, _, _⟩ := aux_nil_ok h
    exact ⟨rfl, rfl, rfl, rfl, flagLe_refl _⟩
  | cons cid rest ih =>
    intro item sch item' sch' logs h
    obtain ⟨wc, sc, hwc, hsc, hcase⟩ := aux_cons_ok h
    rcases hcase with ⟨hskip, h2⟩ | ⟨hvisit, sc', clogs, logs', hrec, h2, rfl⟩
    · exact ih h2
    · obtain ⟨e1, e2, e3, e4, e5⟩ := ih h2
      refine ⟨?_, ?_, ?_, ?_, ?_⟩
      · rw [e1, mergeUp_window_origin]
      · rw [e2, mergeUp_translation]
      · rw [e3, mergeUp_origin]
      · rw [e4, mergeUp_id]
      · exact flagLe_trans (flagLe_mergeUp_left _ _) e5

/-- If every recursive child result comes back with clear flags, the loop
keeps an initially clear accumulated parent state clear. -/
theorem aux_flags_clear
    {recur : WTree → STree → Bool → Vec2 → Except ComposeError (STree × Logs)}
    {tn : String} {pid : Nat} {wch : List (Nat × WTree)} {moved : Bool}
    {translation : Vec2}
    (Hrec : ∀ w s m t s' l, recur w s m t = .ok (s', l) → flagsClear s'.item) :
    ∀ {cids : List Nat} {item : WidgetState} {sch : List (Nat × STree)}
      {item' : WidgetState} {sch' : List (Nat × STree)} {logs : Logs},
      composeChildrenAux recur tn pid wch moved translation cids item sch =
        .ok (item', sch', logs) →
      flagsClear item → flagsClear item' := by
  intro cids
  induction cids with
  | nil =>
    intro item sch item' sch' logs h hcl
    obtain ⟨rfl, _, _⟩ := aux_nil_ok h
    exact hcl
  | cons cid rest ih =>
    intro item sch item' sch' logs h hcl
    obtain ⟨wc, sc, hwc, hsc, hcase⟩ := aux_cons_ok h
    rcases hcase with ⟨hskip, h2⟩ | ⟨hvisit, sc', clogs, logs', hrec, h2, rfl⟩
    · exact ih h2 hcl
    · exact ih h2 (flagsClear_mergeUp hcl (Hrec _ _ _ _ _ _ hrec))

/-- Every path the children loop logs starts with a declared child id. -/
theorem aux_logs_head
    {recur : WTree → STree → Bool → Vec2 → Except ComposeError (STree × Logs)}
    {tn : String} {pid : Nat} {wch : List (Nat × WTree)} {moved : Bool}
    {translation : Vec2} :
    ∀ {cids : List Nat} {item : WidgetState} {sch : List (Nat × STree)}
      {item' : WidgetState} {sch' : List (Nat × STree)} {logs : Logs},
      composeChildrenAux recur tn pid wch moved translation cids item sch =
        .ok (item', sch', logs) →
      (∀ p ∈ logs.visited, ∃ c q, p = c :: q ∧ c ∈ cids) ∧
      (∀ p ∈ logs.composed, ∃ c q, p = c :: q ∧ c ∈ cids) := by
  intro cids
  induction cids with
  | nil =>
    intro item sch item' sch' logs h
    obtain ⟨_, _, rfl⟩ := aux_nil_ok h
    exact ⟨fun p hp => absurd hp (by simp), fun p hp => absurd hp (by simp)⟩
  | cons cid rest ih =>
    intro item sch item' sch' logs h
    obtain ⟨wc, sc, hwc, hsc, hcase⟩ := aux_cons_ok h
    rcases hcase with ⟨hskip, h2⟩ | ⟨hvisit, sc', clogs, logs', hrec, h2, rfl⟩
    · obtain ⟨iv, ic⟩ := ih h2
      refine ⟨fun p hp => ?_, fun p hp => ?_⟩
      · obtain ⟨c, q, rfl, hc⟩ := iv p hp
        exact ⟨c, q, rfl, List.mem_cons_of_mem _ hc⟩
      · obtain ⟨c, q, rfl, hc⟩ := ic p hp
        exact ⟨c, q, rfl, List.mem_cons_of_mem _ hc⟩
    · obtain ⟨iv, ic⟩ := ih h2
      refine ⟨fun p hp => ?_, fun p hp => ?_⟩
      · rcases List.mem_append.mp hp with hn | ho
        · obtain ⟨q, _, rfl⟩ := List.mem_map.mp hn
          exact ⟨cid, q, rfl, List.mem_cons_self _ _⟩
        · obtain ⟨c, q, rfl, hc⟩ := iv p ho
          exact ⟨c, q, rfl, List.mem_cons_of_mem _ hc⟩
      · rcases List.mem_append.mp hp with hn | ho
        · obtain ⟨q, _, rfl⟩ := List.mem_map.mp hn
          exact ⟨cid, q, rfl, List.mem_cons_self _ _⟩
        · obtain ⟨c, q, rfl, hc⟩ := ic p ho
          exact ⟨c, q, rfl, List.mem_cons_of_mem _ hc⟩

/-- A successful children loop found a widget slot and a state slot for
every declared child id. -/
theorem aux_lookup_sound
    {recur : WTree → STree → Bool → Vec2 → Except ComposeError (STree × Logs)}
    {tn : String} {pid : Nat} {wch : List (Nat × WTree)} {moved : Bool}
    {translation : Vec2} :
    ∀ {cids : List Nat} {item : WidgetState} {sch : List (Nat × STree)}
      {item' : WidgetState} {sch' : List (Nat × STree)} {logs : Logs},
      composeChildrenAux recur tn pid wch moved translation cids item sch =
        .ok (item', sch', logs) →
      ∀ c ∈ cids, (∃ wc, assocGet wch c = some wc) ∧
        ∃ sc, assocGet sch c = some sc := by
  intro cids
  induction cids with
  | nil =>
    intro item sch item' sch' logs _ c hc
    exact absurd hc (by simp)
  | cons cid rest ih =>
    intro item sch item' sch' logs h c hc
    obtain ⟨wc, sc, hwc, hsc, hcase⟩ := aux_cons_ok h
    rcases List.mem_cons.mp hc with rfl | hcr
    · exact ⟨⟨wc, hwc⟩, ⟨sc, hsc⟩⟩
    · rcases hcase with ⟨hskip, h2⟩ | ⟨hvisit, sc', clogs, logs', hrec, h2, rfl⟩
      · exact ih h2 c hcr
      · obtain ⟨hw, ⟨x, hx⟩⟩ := ih h2 c hcr
        refine ⟨hw, ?_⟩
        rw [assocGet_assocSet] at hx
        by_cases hceq : c = cid
        · subst hceq
          exact ⟨sc, hsc⟩
        · rw [if_neg hceq] at hx
          exact ⟨x, hx⟩

/-- After a successful children loop, every declared child's state slot
holds clear `translation_changed` / `needs_compose` flags: a visited child
was cleared by its own visit, a skipped child had them clear already. -/
theorem aux_endstate_flags
    {recur : WTree → STree → Bool → Vec2 → Except ComposeError (STree × Logs)}
    {tn : String} {pid : Nat} {wch : List (Nat × WTree)} {moved : Bool}
    {translation : Vec2}
    (Hrec : ∀ w s m t s' l, recur w s m t = .ok (s', l) → flagsClear s'.item) :
    ∀ {cids : List Nat} {item : WidgetState} {sch : List (Nat × STree)}
      {item' : WidgetState} {sch' : List (Nat × STree)} {logs : Logs},
      composeChildrenAux recur tn pid wch moved translation cids item sch =
        .ok (item', sch', logs) →
      ∀ c ∈ cids, ∃ sc, assocGet sch' c = some sc ∧
        sc.item.translation_changed = false ∧ sc.item.needs_compose = false := by
  intro cids
  induction cids with
  | nil =>
    intro item sch item' sch' logs _ c hc
    exact absurd hc (by simp)
  | cons cid rest ih =>
    intro item sch item' sch' logs h c hc
    obtain ⟨wc, sc, hwc, hsc, hcase⟩ := aux_cons_ok h
    by_cases hcr : c ∈ rest
    · rcases hcase with ⟨hskip, h2⟩ | ⟨hvisit, sc', clogs, logs', hrec, h2, rfl⟩
      · exact ih h2 c hcr
      · exact ih h2 c hcr
    · have hceq : c = cid := by
        rcases List.mem_cons.mp hc with rfl | hmem
        · rfl
        · exact absurd hmem hcr
      subst hceq
      rcases hcase with ⟨hskip, h2⟩ | ⟨hvisit, sc', clogs, logs', hrec, h2, rfl⟩
      · refine ⟨sc, ?_, ?_, ?_⟩
        · rw [aux_untouched h2 c hcr]
          exact hsc
        · simp only [Bool.and_eq_true, Bool.not_eq_true'] at hskip
          exact hskip.1.2
        · simp only [Bool.and_eq_true, Bool.not_eq_true'] at hskip
          exact hskip.2
      · obtain ⟨f1, f2, f3⟩ := Hrec _ _ _ _ _ _ hrec
        refine ⟨sc', ?_, f3, f1⟩
        rw [aux_untouched h2 c hcr, assocGet_assocSet]
        simp [hsc]

/-- If every declared child's slots are found and every declared child
passes the skip test, the children loop is the identity and logs nothing. -/
theorem aux_skip_all
    {recur : WTree → STree → Bool → Vec2 → Except ComposeError (STree × Logs)}
    {tn : String} {pid : Nat} {wch : List (Nat × WTree)} {moved : Bool}
    {translation : Vec2} :
    ∀ {cids : List Nat} {item : WidgetState} {sch : List (Nat × STree)},
      (∀ c ∈ cids, ∃ wc sc, assocGet wch c = some wc ∧ assocGet sch c = some sc ∧
        (!moved && !sc.item.translation_changed && !sc.item.needs_compose) = true) →
      composeChildrenAux recur tn pid wch moved translation cids item sch =
        .ok (item, sch, ⟨[], []⟩) := by
  intro cids
  induction cids with
  | nil => intro item sch _; rfl
  | cons cid rest ih =>
    intro item sch hall
    obtain ⟨wc, sc, hwc, hsc, hcond⟩ := hall cid (List.mem_cons_self _ _)
    simp only [composeChildrenAux, hwc, hsc, hcond, if_true]
    exact ih fun c hc => hall c (List.mem_cons_of_mem _ hc)

/-- Soundness of the visited log (children part): under distinct declared
ids, every logged path below this node factors through exactly one declared
child that was found, recursed into with `(moved, translation)`, and whose
result was written back into the final state slot. -/
theorem aux_visited_sound
    {recur : WTree → STree → Bool → Vec2 → Except ComposeError (STree × Logs)}
    {tn : String} {pid : Nat} {wch : List (Nat × WTree)} {moved : Bool}
    {translation : Vec2} :
    ∀ {cids : List Nat} {item : WidgetState} {sch : List (Nat × STree)}
      {item' : WidgetState} {sch' : List (Nat × STree)} {logs : Logs},
      composeChildrenAux recur tn pid wch moved translation cids item sch =
        .ok (item', sch', logs) →
      cids.Nodup →
      ∀ p ∈ logs.visited, ∃ c q wc sc sc' clogs,
        p = c :: q ∧ c ∈ cids ∧ assocGet wch c = some wc ∧
        assocGet sch c = some sc ∧
        recur wc sc moved translation = .ok (sc', clogs) ∧
        q ∈ clogs.visited ∧ assocGet sch' c = some sc' := by
  intro cids
  induction cids with
  | nil =>
    intro item sch item' sch' logs h _ p hp
    obtain ⟨_, _, rfl⟩ := aux_nil_ok h
    exact absurd hp (by simp)
  | cons cid rest ih =>
    intro item sch item' sch' logs h hnd p hp
    have hnd1 : cid ∉ rest := (List.nodup_cons.mp hnd).1
    have hnd2 : rest.Nodup := (List.nodup_cons.mp hnd).2
    obtain ⟨wc, sc, hwc, hsc, hcase⟩ := aux_cons_ok h
    rcases hcase with ⟨hskip, h2⟩ | ⟨hvisit, sc', clogs, logs', hrec, h2, rfl⟩
    · obtain ⟨c, q, wc0, sc0, sc0', cl0, rfl, hcr, e1, e2, e3, e4, e5⟩ :=
        ih h2 hnd2 p hp
      exact ⟨c, q, wc0, sc0, sc0', cl0, rfl, List.mem_cons_of_mem _ hcr,
        e1, e2, e3, e4, e5⟩
    · rcases List.mem_append.mp hp with hn | ho
      · obtain ⟨q, hq, rfl⟩ := List.mem_map.mp hn
        refine ⟨cid, q, wc, sc, sc', clogs, rfl, List.mem_cons_self _ _,
          hwc, hsc, hrec, hq, ?_⟩
        rw [aux_untouched h2 cid hnd1, assocGet_assocSet]
        simp [hsc]
      · obtain ⟨c, q, wc0, sc0, sc0', cl0, rfl, hcr, e1, e2, e3, e4, e5⟩ :=
          ih h2 hnd2 p ho
        have hne : c ≠ cid := fun he => hnd1 (he ▸ hcr)
        rw [assocGet_assocSet, if_neg hne] at e2
        exact ⟨c, q, wc0, sc0, sc0', cl0, rfl, List.mem_cons_of_mem _ hcr,
          e1, e2, e3, e4, e5⟩

/-- Per-child characterization of the children loop (claim C4's content at
loop level): under distinct declared ids, each declared child's slots were
found, and the child was either skipped entirely — slot unchanged, no path
below it logged — exactly when the skip test fired, or recursed into with
`(moved, translation)`, its result written back, its subtree's visits
logged below its id, and its resulting flags merged up (never lost). -/
theorem aux_perchild
    {recur : WTree → STree → Bool → Vec2 → Except ComposeError (STree × Logs)}
    {tn : String} {pid : Nat} {wch : List (Nat × WTree)} {moved : Bool}
    {translation : Vec2} :
    ∀ {cids : List Nat} {item : WidgetState} {sch : List (Nat × STree)}
      {item' : WidgetState} {sch' : List (Nat × STree)} {logs : Logs},
      composeChildrenAux recur tn pid wch moved translation cids item sch =
        .ok (item', sch', logs) →
      cids.Nodup →
      ∀ c ∈ cids, ∃ wc sc, assocGet wch c = some wc ∧ assocGet sch c = some sc ∧
        (((!moved && !sc.item.translation_changed && !sc.item.needs_compose) = true →
           assocGet sch' c = some sc ∧ ∀ q, (c :: q) ∉ logs.visited) ∧
         ((!moved && !sc.item.translation_changed && !sc.item.needs_compose) = false →
           ∃ sc' clogs, recur wc sc moved translation = .ok (sc', clogs) ∧
             assocGet sch' c = some sc' ∧
             (∀ q, (c :: q) ∈ logs.visited ↔ q ∈ clogs.visited) ∧
             flagLe sc'.item item')) := by
  intro cids
  induction cids with
  | nil =>
    intro item sch item' sch' logs _ _ c hc
    exact absurd hc (by simp)
  | cons cid rest ih =>
    intro item sch item' sch' logs h hnd c hc
    have hnd1 : cid ∉ rest := (List.nodup_cons.mp hnd).1
    have hnd2 : rest.Nodup := (List.nodup_cons.mp hnd).2
    obtain ⟨wc, sc, hwc, hsc, hcase⟩ := aux_cons_ok h
    rcases List.mem_cons.mp hc with rfl | hcr
    · -- the head child itself; by Nodup it does not occur again in `rest`
      have hcnr : c ∉ rest := hnd1
      rcases hcase with ⟨hskip, h2⟩ | ⟨hvisit, sc', clogs, logs', hrec, h2, rfl⟩
      · refine ⟨wc, sc, hwc, hsc, fun _ => ⟨?_, fun q hq => ?_⟩,
          fun hfalse => absurd hskip (by simp [hfalse])⟩
        · rw [aux_untouched h2 c hcnr]
          exact hsc
        · obtain ⟨c', q', heq, hc'⟩ := (aux_logs_head h2).1 _ hq
          injection heq with heq1 _
          exact hcnr (heq1 ▸ hc')
      · refine ⟨wc, sc, hwc, hsc,
          fun htrue => absurd htrue (by simp [hvisit]),
          fun _ => ⟨sc', clogs, hrec, ?_, fun q => ⟨fun hq => ?_, fun hq => ?_⟩, ?_⟩⟩
        · rw [aux_untouched h2 c hcnr, assocGet_assocSet]
          simp [hsc]
        · rcases List.mem_append.mp hq with hn | ho
          · obtain ⟨q₀, hq₀, heq⟩ := List.mem_map.mp hn
            injection heq with _ heq2
            exact heq2 ▸ hq₀
          · obtain ⟨c', q', heq, hc'⟩ := (aux_logs_head h2).1 _ ho
            injection heq with heq1 _
            exact absurd (heq1 ▸ hc') hcnr
        · exact List.mem_append.mpr (Or.inl (List.mem_map.mpr ⟨q, hq, rfl⟩))
        · exact flagLe_trans (flagLe_mergeUp_right _ _) (aux_item_props h2).2.2.2.2
    · -- a child further down the declared list
      have hne : c ≠ cid := fun he => hnd1 (he ▸ hcr)
      rcases hcase with ⟨hskip, h2⟩ | ⟨hvisit, sc', clogs, logs', hrec, h2, rfl⟩
      · exact ih h2 hnd2 c hcr
      · obtain ⟨wc0, sc0, e1, e2, eskip, evisit⟩ := ih h2 hnd2 c hcr
        rw [assocGet_assocSet, if_neg hne] at e2
        refine ⟨wc0, sc0, e1, e2, fun htrue => ?_, fun hfalse => ?_⟩
        · obtain ⟨f1, f2⟩ := eskip htrue
          refine ⟨f1, fun q hq => ?_⟩
          rcases List.mem_append.mp hq with hn | ho
          · obtain ⟨q₀, _, heq⟩ := List.mem_map.mp hn
            injection heq with heq1 _
            exact hne heq1.symm
          · exact f2 q ho
        · obtain ⟨sc0', cl0, f1, f2, f3, f4⟩ := evisit hfalse
          refine ⟨sc0', cl0, f1, f2, fun q => ⟨fun hq => ?_, fun hq => ?_⟩, f4⟩
          · rcases List.mem_append.mp hq with hn | ho
            · obtain ⟨q₀, _, heq⟩ := List.mem_map.mp hn
              injection heq with heq1 _
              exact absurd heq1.symm hne
            · exact (f3 q).mp ho
          · exact List.mem_append.mpr (Or.inr ((f3 q).mpr hq))

/-- Inversion of one successful visit of `compose_widget`. -/
theorem composeWidget_succ_ok
    {fuel : Nat} {tn : String} {cids : List Nat} {wch : List (Nat × WTree)}
    {item : WidgetState} {sch : List (Nat × STree)} {pm : Bool} {pt : Vec2}
    {s' : STree} {l : Logs}
    (h : composeWidget (fuel + 1) (.node tn cids wch) (.node item sch) pm pt =
        .ok (s', l)) :
    ∃ item2 sch2 clogs,
      composeChildrenAux (composeWidget fuel) tn item.id wch
        (pm || item.translation_changed) (pt + item.translation + item.origin)
        cids
        { item with
          window_origin := pt + item.translation + item.origin,
          needs_compose := false, request_compose := false,
          translation_changed := false }
        sch = .ok (item2, sch2, clogs) ∧
      s' = .node item2 sch2 ∧
      l = ⟨[] :: clogs.visited,
           (if item.request_compose then [[]] else []) ++ clogs.composed⟩ := by
  simp only [composeWidget, composeNode] at h
  split at h
  next e haux => exact absurd h (by simp)
  next item2 sch2 clogs haux =>
    simp only [Except.ok.injEq, Prod.mk.injEq] at h
    exact ⟨item2, sch2, clogs, haux, h.1.symm, h.2.symm⟩

/-- After any successful visit, the visited node's three compose flags are
clear (its own were cleared, and merged-up children were visited and hence
clear themselves, by induction). -/
theorem composeWidget_flags_clear :
    ∀ (fuel : Nat) (w : WTree) (s : STree) (pm : Bool) (pt : Vec2)
      (s' : STree) (l : Logs),
      composeWidget fuel w s pm pt = .ok (s', l) → flagsClear s'.item := by
  intro fuel
  induction fuel with
  | zero => intro w s pm pt s' l h; exact absurd h (by simp [composeWidget])
  | succ fuel ih =>
    intro w s pm pt s' l h
    obtain ⟨tn, cids, wch⟩ := w
    obtain ⟨item, sch⟩ := s
    obtain ⟨item2, sch2, clogs, haux, rfl, rfl⟩ := composeWidget_succ_ok h
    exact aux_flags_clear (fun w s m t s' l hh => ih w s m t s' l hh) haux
      ⟨rfl, rfl, rfl⟩

/-- A visit rewrites the node's `window_origin` to the accumulated
translation and otherwise leaves its geometry and id untouched. -/
theorem composeWidget_geom
    {fuel : Nat} {w : WTree} {s : STree} {pm : Bool} {pt : Vec2}
    {s' : STree} {l : Logs}
    (h : composeWidget fuel w s pm pt = .ok (s', l)) :
    s'.item.window_origin = pt + s.item.translation + s.item.origin ∧
    s'.item.translation = s.item.translation ∧
    s'.item.origin = s.item.origin ∧ s'.item.id = s.item.id := by
  cases fuel with
  | zero => exact absurd h (by simp [composeWidget])
  | succ fuel =>
    obtain ⟨tn, cids, wch⟩ := w
    obtain ⟨item, sch⟩ := s
    obtain ⟨item2, sch2, clogs, haux, rfl, rfl⟩ := composeWidget_succ_ok h
    obtain ⟨e1, e2, e3, e4, _⟩ := aux_item_props haux
    exact ⟨e1, e2, e3, e4⟩

/-- The visit log of a successful visit starts with the node itself, and
the node's own hook fired exactly when `request_compose` was set on entry:
the only root-path entry of the composed log is the node's own. -/
theorem composeWidget_root_logs
    {fuel : Nat} {w : WTree} {s : STree} {pm : Bool} {pt : Vec2}
    {s' : STree} {l : Logs}
    (h : composeWidget fuel w s pm pt = .ok (s', l)) :
    ([] ∈ l.visited) ∧ (([] ∈ l.composed) ↔ s.item.request_compose = true) := by
  cases fuel with
  | zero => exact absurd h (by simp [composeWidget])
  | succ fuel =>
    obtain ⟨tn, cids, wch⟩ := w
    obtain ⟨item, sch⟩ := s
    obtain ⟨item2, sch2, clogs, haux, rfl, rfl⟩ := composeWidget_succ_ok h
    have hhead := (aux_logs_head haux).2
    constructor
    · exact List.mem_cons_self _ _
    · constructor
      · intro hmem
        rcases List.mem_append.mp hmem with hif | hcl
        · by_cases hrc : item.request_compose
          · exact hrc
          · rw [if_neg hrc] at hif
            exact absurd hif (by simp)
        · obtain ⟨c, q, heq, _⟩ := hhead _ hcl
          exact absurd heq (by simp)
      · intro hrc
        have hrc2 : item.request_compose = true := hrc
        exact List.mem_append.mpr (Or.inl (by simp [hrc2]))

/-- Claim C5: during a compose visit of a node (any visit is the root of
some `compose_widget` call), the node's own compose hook runs iff its
`request_compose` flag is set at visit time, and after the visit the node's
`needs_compose`, `request_compose` and `translation_changed` flags are all
clear — each visit consumes them exactly once. (The final flags are clear
and not merely cleared mid-visit because every merged-up child was itself
visited, hence clear.) -/
theorem claim_c5_hook_iff_request
    (fuel : Nat) (w : WTree) (s : STree) (pm : Bool) (pt : Vec2)
    (s' : STree) (l : Logs)
    (h : composeWidget fuel w s pm pt = .ok (s', l)) :
    (([] ∈ l.composed) ↔ s.item.request_compose = true) ∧
    s'.item.needs_compose = false ∧ s'.item.request_compose = false ∧
    s'.item.translation_changed = false :=
  ⟨(composeWidget_root_logs h).2, composeWidget_flags_clear fuel w s pm pt s' l h⟩

/-- Claim C7: compose is idempotent. A second pass over the result of a
successful pass (with the same root arguments `root_compose` uses:
`parent_moved = false`, zero parent translation) succeeds, visits only the
root, invokes zero compose hooks (empty composed log) and returns the very
same tree — in particular identical geometry at every node. -/
theorem claim_c7_idempotent
    (fuel : Nat) (w : WTree) (s s₁ : STree) (l₁ : Logs)
    (h : composeWidget fuel w s false ⟨0, 0⟩ = .ok (s₁, l₁)) :
    composeWidget fuel w s₁ false ⟨0, 0⟩ = .ok (s₁, ⟨[[]], []⟩) := by
  cases fuel with
  | zero => exact absurd h (by simp [composeWidget])
  | succ fuel =>
    obtain ⟨tn, cids, wch⟩ := w
    obtain ⟨item, sch⟩ := s
    obtain ⟨item2, sch2, clogs, haux, rfl, rfl⟩ := composeWidget_succ_ok h
    have hflags : flagsClear item2 :=
      aux_flags_clear
        (fun w s m t s' l hh => composeWidget_flags_clear fuel w s m t s' l hh)
        haux ⟨rfl, rfl, rfl⟩
    have e1 : item2.window_origin =
        (⟨0, 0⟩ : Vec2) + item.translation + item.origin := (aux_item_props haux).1
    have e2 : item2.translation = item.translation := (aux_item_props haux).2.1
    have e3 : item2.origin = item.origin := (aux_item_props haux).2.2.1
    have hlk := aux_lookup_sound haux
    have hend := aux_endstate_flags
      (fun w s m t s' l hh => composeWidget_flags_clear fuel w s m t s' l hh) haux
    have hwo2 : (⟨0, 0⟩ : Vec2) + item2.translation + item2.origin =
        item2.window_origin := by
      rw [e2, e3, e1]
    have hitem : ({ item2 with
        window_origin := (⟨0, 0⟩ : Vec2) + item2.translation + item2.origin,
        needs_compose := false, request_compose := false,
        translation_changed := false } : WidgetState) = item2 := by
      obtain ⟨f1, f2, f3⟩ := hflags
      obtain ⟨i1, i2, i3, i4, i5, i6, i7⟩ := item2
      simp only at hwo2 f1 f2 f3 ⊢
      simp only [WidgetState.mk.injEq]
      exact ⟨by trivial, by trivial, by trivial, hwo2, f1.symm, f2.symm, f3.symm⟩
    have hall : ∀ c ∈ cids, ∃ wc sc, assocGet wch c = some wc ∧
        assocGet sch2 c = some sc ∧
        (!(false : Bool) && !sc.item.translation_changed &&
          !sc.item.needs_compose) = true := by
      intro c hc
      obtain ⟨⟨wc, hwc⟩, _⟩ := hlk c hc
      obtain ⟨sc, hsc, htc, hnc⟩ := hend c hc
      exact ⟨wc, sc, hwc, hsc, by simp [htc, hnc]⟩
    have hmv : (false || item2.translation_changed) = false := by
      simp [hflags.2.2]
    have haux2 : composeChildrenAux (composeWidget fuel) tn item2.id wch false
        ((⟨0, 0⟩ : Vec2) + item2.translation + item2.origin) cids item2 sch2 =
          .ok (item2, sch2, ⟨[], []⟩) := aux_skip_all hall
    have hrc : item2.request_compose = false := hflags.2.1
    simp only [composeWidget, composeNode, hmv, hitem, haux2, hrc]
    simp

/-- Claim C3: for every node visited by a successful compose pass (rooted
at arguments `pm`, `pt`), the node's `window_origin` in the resulting tree
was recomputed — unconditionally, on this very visit — to the pass-root
translation plus the vector sum of `translation + origin` of every node on
the path from the pass root down to it (its visited ancestors and itself).
The `moved` flag and the skip test only decide which nodes are visited;
every visited node gets exactly this value. -/
theorem claim_c3_window_origin :
    ∀ (fuel : Nat) (w : WTree) (s : STree) (pm : Bool) (pt : Vec2)
      (s' : STree) (l : Logs),
      WTree.Wf w →
      composeWidget fuel w s pm pt = .ok (s', l) →
      ∀ p ∈ l.visited, ∃ sub contrib,
        s'.getPath p = some sub ∧ pathContrib s p = some contrib ∧
        sub.item.window_origin = pt + contrib := by
  intro fuel
  induction fuel with
  | zero => intro w s pm pt s' l _ h; exact absurd h (by simp [composeWidget])
  | succ fuel ih =>
    intro w s pm pt s' l hwf h p hp
    obtain ⟨tn, cids, wch⟩ := w
    obtain ⟨item, sch⟩ := s
    obtain ⟨item2, sch2, clogs, haux, rfl, rfl⟩ := composeWidget_succ_ok h
    cases hwf with
    | node hnd hch =>
    rcases List.mem_cons.mp hp with rfl | hp'
    · refine ⟨.node item2 sch2, item.translation + item.origin, rfl, rfl, ?_⟩
      have e1 : item2.window_origin = pt + item.translation + item.origin :=
        (aux_item_props haux).1
      show item2.window_origin = pt + (item.translation + item.origin)
      rw [e1, Vec2.add_assoc']
    · obtain ⟨c, q, wc, sc, sc', cl, rfl, hcin, hwc, hsc, hrec, hq, hsc'⟩ :=
        aux_visited_sound haux hnd p hp'
      have hwfc : WTree.Wf wc := hch _ (assocGet_mem hwc)
      obtain ⟨sub, contrib, g1, g2, g3⟩ :=
        ih wc sc (pm || item.translation_changed)
          (pt + item.translation + item.origin) sc' cl hwfc hrec q hq
      refine ⟨sub, item.translation + item.origin + contrib, ?_, ?_, ?_⟩
      · simp [STree.getPath, hsc', g1]
      · simp [pathContrib, hsc, g2]
      · rw [g3, Vec2.add_assoc' pt item.translation item.origin,
            Vec2.add_assoc' pt (item.translation + item.origin) contrib]

/-- Claim C4: during one compose visit of a node (with distinct declared
child ids), each child declared by `children_ids()` — in declaration order,
all of them looked up successfully — is skipped entirely (state slot
unchanged, nothing below it visited) when `moved`, its
`translation_changed` and its `needs_compose` are all false; otherwise the
pass recurses on it with arguments `(moved, translation)` and afterwards
merges the child's resulting state upward into this node's state: the
child's post-visit flags are OR-ed in, never lost. -/
theorem claim_c4_child_skip_recurse_merge
    (fuel : Nat) (tn : String) (cids : List Nat) (wch : List (Nat × WTree))
    (item : WidgetState) (sch : List (Nat × STree)) (pm : Bool) (pt : Vec2)
    (s' : STree) (l : Logs)
    (hnd : cids.Nodup)
    (h : composeWidget (fuel + 1) (.node tn cids wch) (.node item sch) pm pt =
        .ok (s', l)) :
    ∀ c ∈ cids, ∃ wc sc,
      assocGet wch c = some wc ∧ assocGet sch c = some sc ∧
      ((((pm || item.translation_changed) = false ∧
          sc.item.translation_changed = false ∧
          sc.item.needs_compose = false) →
         assocGet s'.children c = some sc ∧ ∀ q, (c :: q) ∉ l.visited) ∧
       (((pm || item.translation_changed) = true ∨
          sc.item.translation_changed = true ∨
          sc.item.needs_compose = true) →
         ∃ sc' clogs,
           composeWidget fuel wc sc (pm || item.translation_changed)
             (pt + item.translation + item.origin) = .ok (sc', clogs) ∧
           assocGet s'.children c = some sc' ∧
           (∀ q, ((c :: q) ∈ l.visited ↔ q ∈ clogs.visited)) ∧
           (sc'.item.needs_compose = true → s'.item.needs_compose = true) ∧
           (sc'.item.request_compose = true → s'.item.request_compose = true) ∧
           (sc'.item.translation_changed = true →
             s'.item.translation_changed = true))) := by
  obtain ⟨item2, sch2, clogs, haux, rfl, rfl⟩ := composeWidget_succ_ok h
  intro c hc
  obtain ⟨wc, sc, hwc, hsc, hskip, hvisit⟩ := aux_perchild haux hnd c hc
  have hbool : ∀ m t n : Bool, ((!m && !t && !n) = true ↔
      (m = false ∧ t = false ∧ n = false)) ∧
      ((!m && !t && !n) = false ↔ (m = true ∨ t = true ∨ n = true)) := by
    decide
  refine ⟨wc, sc, hwc, hsc, fun hcond => ?_, fun hcond => ?_⟩
  · obtain ⟨f1, f2⟩ := hskip (((hbool _ _ _).1).mpr hcond)
    refine ⟨f1, fun q hq => ?_⟩
    exact f2 q (by
      rcases List.mem_cons.mp hq with heq | hmem
      · exact absurd heq (by simp)
      · exact hmem)
  · obtain ⟨sc', cl, f1, f2, f3, f4⟩ :=
      hvisit (((hbool _ _ _).2).mpr (by tauto))
    refine ⟨sc', cl, f1, f2, fun q => ?_, f4.1, f4.2.1, f4.2.2⟩
    constructor
    · intro hq
      rcases List.mem_cons.mp hq with heq | hmem
      · exact absurd heq (by simp)
      · exact (f3 q).mp hmem
    · intro hq
      exact List.mem_cons_of_mem _ ((f3 q).mpr hq)

/-- A declared child id with no widget slot or no state slot makes the
children loop fail: it can never return `ok`. -/
theorem aux_missing_not_ok
    {recur : WTree → STree → Bool → Vec2 → Except ComposeError (STree × Logs)}
    {tn : String} {pid : Nat} {wch : List (Nat × WTree)} {moved : Bool}
    {translation : Vec2} {c : Nat} :
    ∀ {cids : List Nat} {item : WidgetState} {sch : List (Nat × STree)},
      c ∈ cids → (assocGet wch c = none ∨ assocGet sch c = none) →
      ∀ out, composeChildrenAux recur tn pid wch moved translation cids item sch ≠
        .ok out := by
  intro cids
  induction cids with
  | nil => intro item sch hc _ out _; exact absurd hc (by simp)
  | cons cid rest ih =>
    intro item sch hc hmiss out hok
    obtain ⟨out1, out2, out3⟩ := out
    obtain ⟨wc, sc, hwc, hsc, hcase⟩ := aux_cons_ok hok
    by_cases hceq : c = cid
    · subst hceq
      rcases hmiss with hm | hm
      · rw [hwc] at hm; exact absurd hm (by simp)
      · rw [hsc] at hm; exact absurd hm (by simp)
    · have hcr : c ∈ rest := by
        rcases List.mem_cons.mp hc with heq | hmem
        · exact absurd heq hceq
        · exact hmem
      rcases hcase with ⟨hskip, h2⟩ | ⟨hvisit, sc', clogs, logs', hrec, h2, rfl⟩
      · exact ih hcr hmiss _ h2
      · refine ih hcr ?_ _ h2
        rcases hmiss with hm | hm
        · exact Or.inl hm
        · refine Or.inr ?_
          rw [assocGet_assocSet, if_neg hceq]
          exact hm

/-- Claim C6: if a node's children enumeration declares a child id whose
widget slot or state slot is absent from the arena, the compose traversal
never completes (no `ok` result at any fuel — the panic is modelled as the
error channel), and reaching that child produces exactly the diagnostic of
the source's panic: the parent's type name, the parent's id and the missing
child id; stated for the child in head position, where it is reached
first. -/
theorem claim_c6_missing_child
    (fuel : Nat) (tn : String) (cids : List Nat) (wch : List (Nat × WTree))
    (item : WidgetState) (sch : List (Nat × STree)) (pm : Bool) (pt : Vec2)
    (c : Nat) (hc : c ∈ cids)
    (hmiss : assocGet wch c = none ∨ assocGet sch c = none) :
    (∀ r, composeWidget fuel (.node tn cids wch) (.node item sch) pm pt ≠
       .ok r) ∧
    (∀ rest, cids = c :: rest →
      composeWidget (fuel + 1) (.node tn cids wch) (.node item sch) pm pt =
        .error (.missingChild tn item.id c)) := by
  constructor
  · intro r hok
    cases fuel with
    | zero => exact absurd hok (by simp [composeWidget])
    | succ fuel =>
      obtain ⟨s', l⟩ := r
      obtain ⟨item2, sch2, clogs, haux, _, _⟩ := composeWidget_succ_ok hok
      exact aux_missing_not_ok hc hmiss _ haux
  · intro rest hrest
    subst hrest
    simp only [composeWidget, composeNode, composeChildrenAux]
    rcases hmiss with hm | hm
    · rw [hm]
    · rw [hm]
      cases hwc : assocGet wch c with
      | none => rfl
      | some wc => rfl

/-! ## Concrete witness instances for the compose-pass claims -/

def c3W : WTree := .node "P" [7] [(7, .node "C" [] [])]

def c3S : STree :=
  .node { id := 0, origin := ⟨0, 0⟩, translation := ⟨0, 0⟩,
          window_origin := ⟨0, 0⟩, needs_compose := false,
          request_compose := false, translation_changed := false }
    [(7, .node { id := 7, origin := ⟨0, 0⟩, translation := ⟨1, 2⟩,
                 window_origin := ⟨0, 0⟩, needs_compose := false,
                 request_compose := false, translation_changed := true } [])]

def c3OutS : STree :=
  .node { id := 0, origin := ⟨0, 0⟩, translation := ⟨0, 0⟩,
          window_origin := ⟨0, 0⟩, needs_compose := false,
          request_compose := false, translation_changed := false }
    [(7, .node { id := 7, origin := ⟨0, 0⟩, translation := ⟨1, 2⟩,
                 window_origin := ⟨1, 2⟩, needs_compose := false,
                 request_compose := false, translation_changed := false } [])]

theorem c3W_wf : WTree.Wf c3W := by
  refine WTree.Wf.node (by decide) ?_
  intro p hp
  simp only [c3W, List.mem_singleton] at hp
  subst hp
  exact WTree.Wf.node (by decide) (fun q hq => absurd hq (by simp))

/-- Witness for C3 at a concrete two-node tree: the visited child at path
`[7]` has `window_origin = (0,0) + ((0,0)+(0,0) + ((1,2)+(0,0)))`. -/
theorem claim_c3_window_origin_witness :
    ∃ sub contrib, c3OutS.getPath [7] = some sub ∧
      pathContrib c3S [7] = some contrib ∧
      sub.item.window_origin = (⟨0, 0⟩ : Vec2) + contrib :=
  claim_c3_window_origin 2 c3W c3S false ⟨0, 0⟩ c3OutS ⟨[[], [7]], []⟩
    c3W_wf (by rfl) [7] (by decide)

def c4Wch : List (Nat × WTree) := [(1, .node "C1" [] []), (2, .node "C2" [] [])]

def c4Item : WidgetState :=
  { id := 0, origin := ⟨0, 0⟩, translation := ⟨0, 0⟩, window_origin := ⟨0, 0⟩,
    needs_compose := false, request_compose := false, translation_changed := false }

def c4Sch : List (Nat × STree) :=
  [(1, .node { id := 1, origin := ⟨0, 0⟩, translation := ⟨5, 6⟩,
               window_origin := ⟨0, 0⟩, needs_compose := true,
               request_compose := false, translation_changed := false } []),
   (2, .node { id := 2, origin := ⟨0, 0⟩, translation := ⟨7, 8⟩,
               window_origin := ⟨0, 0⟩, needs_compose := false,
               request_compose := false, translation_changed := false } [])]

def c4OutS : STree :=
  .node c4Item
    [(1, .node { id := 1, origin := ⟨0, 0⟩, translation := ⟨5, 6⟩,
                 window_origin := ⟨5, 6⟩, needs_compose := false,
                 request_compose := false, translation_changed := false } []),
     (2, .node { id := 2, origin := ⟨0, 0⟩, translation := ⟨7, 8⟩,
                 window_origin := ⟨0, 0⟩, needs_compose := false,
                 request_compose := false, translation_changed := false } [])]

/-- Witness for C4 at a concrete tree with a visited child (id 1, which has
`needs_compose`) and a skipped sibling (id 2). -/
theorem claim_c4_child_skip_recurse_merge_witness :
    ∃ wc sc,
      assocGet c4Wch 1 = some wc ∧ assocGet c4Sch 1 = some sc ∧
      ((((false || c4Item.translation_changed) = false ∧
          sc.item.translation_changed = false ∧
          sc.item.needs_compose = false) →
         assocGet c4OutS.children 1 = some sc ∧
         ∀ q, (1 :: q) ∉ (Logs.mk [[], [1]] []).visited) ∧
       (((false || c4Item.translation_changed) = true ∨
          sc.item.translation_changed = true ∨
          sc.item.needs_compose = true) →
         ∃ sc' clogs,
           composeWidget 1 wc sc (false || c4Item.translation_changed)
             ((⟨0, 0⟩ : Vec2) + c4Item.translation + c4Item.origin) =
               .ok (sc', clogs) ∧
           assocGet c4OutS.children 1 = some sc' ∧
           (∀ q, ((1 :: q) ∈ (Logs.mk [[], [1]] []).visited ↔
             q ∈ clogs.visited)) ∧
           (sc'.item.needs_compose = true → c4OutS.item.needs_compose = true) ∧
           (sc'.item.request_compose = true →
             c4OutS.item.request_compose = true) ∧
           (sc'.item.translation_changed = true →
             c4OutS.item.translation_changed = true))) :=
  claim_c4_child_skip_recurse_merge 1 "P" [1, 2] c4Wch c4Item c4Sch false
    ⟨0, 0⟩ c4OutS ⟨[[], [1]], []⟩ (by decide) (by rfl) 1 (by decide)

def c5W : WTree := .node "W" [] []

def c5S : STree :=
  .node { id := 0, origin := ⟨0, 0⟩, translation := ⟨1, 1⟩,
          window_origin := ⟨0, 0⟩, needs_compose := true,
          request_compose := true, translation_changed := false } []

def c5Out : STree :=
  .node { id := 0, origin := ⟨0, 0⟩, translation := ⟨1, 1⟩,
          window_origin := ⟨1, 1⟩, needs_compose := false,
          request_compose := false, translation_changed := false } []

/-- Witness for C5 at a concrete one-node tree whose `request_compose` is
set: the hook fires (root path logged composed) and all flags end clear. -/
theorem claim_c5_hook_iff_request_witness :
    (([] ∈ (Logs.mk [[]] [[]]).composed) ↔ c5S.item.request_compose = true) ∧
    c5Out.item.needs_compose = false ∧ c5Out.item.request_compose = false ∧
    c5Out.item.translation_changed = false :=
  claim_c5_hook_iff_request 1 c5W c5S false ⟨0, 0⟩ c5Out ⟨[[]], [[]]⟩ (by rfl)

def c6S : STree :=
  .node { id := 0, origin := ⟨0, 0⟩, translation := ⟨0, 0⟩,
          window_origin := ⟨0, 0⟩, needs_compose := false,
          request_compose := false, translation_changed := false } []

/-- Witness for C6: a node of type name "R" declaring child id 5 that has
no slot in the arena; the pass can never return ok, and at head position it
fails with exactly the panic's diagnostic data. -/
theorem claim_c6_missing_child_witness :
    (∀ r, composeWidget 1 (.node "R" [5] []) c6S false ⟨0, 0⟩ ≠ .ok r) ∧
    (∀ rest, [5] = 5 :: rest →
      composeWidget 2 (.node "R" [5] []) c6S false ⟨0, 0⟩ =
        .error (.missingChild "R" 0 5)) :=
  claim_c6_missing_child 1 "R" [5] [] c6S.item [] false ⟨0, 0⟩ 5 (by decide)
    (Or.inl (by rfl))

def c7W : WTree := .node "P" [7] [(7, .node "C" [] [])]

def c7S : STree :=
  .node { id := 0, origin := ⟨0, 0⟩, translation := ⟨0, 0⟩,
          window_origin := ⟨0, 0⟩, needs_compose := false,
          request_compose := false, translation_changed := false }
    [(7, .node { id := 7, origin := ⟨0, 0⟩, translation := ⟨1, 2⟩,
                 window_origin := ⟨0, 0⟩, needs_compose := false,
                 request_compose := false, translation_changed := true } [])]

def c7S1 : STree :=
  .node { id := 0, origin := ⟨0, 0⟩, translation := ⟨0, 0⟩,
          window_origin := ⟨0, 0⟩, needs_compose := false,
          request_compose := false, translation_changed := false }
    [(7, .node { id := 7, origin := ⟨0, 0⟩, translation := ⟨1, 2⟩,
                 window_origin := ⟨1, 2⟩, needs_compose := false,
                 request_compose := false, translation_changed := false } [])]

/-- Witness for C7 at a concrete two-node tree: after the first pass, a
second pass returns the same tree, visits only the root and runs no hook. -/
theorem claim_c7_idempotent_witness :
    composeWidget 2 c7W c7S1 false ⟨0, 0⟩ = .ok (c7S1, ⟨[[]], []⟩) :=
  claim_c7_idempotent 2 c7W c7S c7S1 ⟨[[], [7]], []⟩ (by rfl)

/-! ## The action-mapping combinator (`src/xilem_core/src/views/map_task.rs`)

The `View` trait is embedded as a record of its four operations over the
view value type `V`; Rust `&mut` parameters (view state, context, element,
app state) are threaded explicitly through the return types. A future
`Fut : Future<Output = FutureOutput>` is embedded as an opaque type `Fut`
together with an external `run : Fut → FutureOutput` that stands for the
scheduler driving the deferred unit to completion. -/

abbrev ViewId := Nat

/-- Modelled from the spec: `MessageResult` is not under `src/` (only its
use in `MapAction::message` is). The spec's message contract returns "an
action value to bubble upward, a 'fully consumed, no action' signal, or a
'no matching target' signal (stale or never-built address)". -/
inductive MessageResult (Action Message : Type) where
  | action (a : Action)
  | nop
  | stale (m : Message)
deriving Repr, DecidableEq

/-- Modelled from the spec: `MessageResult::map` is not under `src/`. It
applies the mapping closure to the action variant only, passing the other
signals through unchanged; the closure of `MapAction::message` mutably
captures `app_state`, so the state is threaded through here. -/
def MessageResult.mapWithState {State A B Message : Type}
    (f : State → A → State × B) (s : State) :
    MessageResult A Message → MessageResult B Message × State
  | .action a => (MessageResult.action (f s a).2, (f s a).1)
  | .nop => (.nop, s)
  | .stale m => (.stale m, s)

/-- The `View` trait's operations for view values of type `V`. -/
structure View (V State Action Ctx Message El VS : Type) where
  build : V → Ctx → (El × VS) × Ctx
  rebuild : V → V → VS → Ctx → El → El × VS × Ctx
  teardown : V → VS → Ctx → El → VS × Ctx × El
  message : V → VS → List ViewId → Message → State →
    MessageResult Action Message × VS × State

/-- The `MapAction` view value: the synchronous mapping function (which may
mutate the state and returns the deferred unit), the completion callback,
and the wrapped child view. -/
structure MapAction (State ParentAction ChildAction V FutureOutput Fut : Type) where
  map_fn : State → ChildAction → State × Fut
  callback_fn : State → FutureOutput → State × ParentAction
  child : V

/-- The `map_action` constructor function. -/
def map_action {State ParentAction ChildAction V FutureOutput Fut : Type}
    (view : V) (map_fn : State → ChildAction → State × Fut)
    (callback_fn : State → FutureOutput → State × ParentAction) :
    MapAction State ParentAction ChildAction V FutureOutput Fut :=
  { callback_fn := callback_fn, map_fn := map_fn, child := view }

section MapActionOps

variable {State ParentAction ChildAction V FutureOutput Fut Ctx Message El VS : Type}

/-- Embeds `MapAction::build`: `self.child.build(ctx)`. The combinator's
`ViewState` and `Element` associated types are exactly the child's
(`type ViewState = V::ViewState; type Element = V::Element`), which the
embedding renders by using the child's `VS` and `El` unchanged. -/
def MapAction.build (impl : View V State ChildAction Ctx Message El VS)
    (self : MapAction State ParentAction ChildAction V FutureOutput Fut)
    (ctx : Ctx) : (El × VS) × Ctx :=
  impl.build self.child ctx

/-- Embeds `MapAction::rebuild`: `self.child.rebuild(&prev.child, ...)`. -/
def MapAction.rebuild (impl : View V State ChildAction Ctx Message El VS)
    (self prev : MapAction State ParentAction ChildAction V FutureOutput Fut)
    (vs : VS) (ctx : Ctx) (el : El) : El × VS × Ctx :=
  impl.rebuild self.child prev.child vs ctx el

/-- Embeds `MapAction::teardown`: `self.child.teardown(...)`. -/
def MapAction.teardown (impl : View V State ChildAction Ctx Message El VS)
    (self : MapAction State ParentAction ChildAction V FutureOutput Fut)
    (vs : VS) (ctx : Ctx) (el : El) : VS × Ctx × El :=
  impl.teardown self.child vs ctx el

/-- Embeds `MapAction::message`: delegate to the child at the same `id_path`, then
map the action variant with `map_fn` (which may mutate `app_state` and
yields the deferred unit). -/
def MapAction.message (impl : View V State ChildAction Ctx Message El VS)
    (self : MapAction State ParentAction ChildAction V FutureOutput Fut)
    (vs : VS) (id_path : List ViewId) (msg : Message) (app_state : State) :
    MessageResult Fut Message × VS × State :=
  let r := impl.message self.child vs id_path msg app_state
  let m := MessageResult.mapWithState self.map_fn r.2.2 r.1
  (m.1, r.2.1, m.2)

/-- Modelled from the spec: the handoff of the deferred unit to the
externally supplied task scheduler is not under `src/`. A dispatch runs the
combinator's message operation; when it yields a deferred unit, that unit
is appended to the scheduler's queue — not awaited inline (no `run`
involved here) — and no parent action is produced synchronously. -/
def dispatchMapAction (impl : View V State ChildAction Ctx Message El VS)
    (self : MapAction State ParentAction ChildAction V FutureOutput Fut)
    (vs : VS) (id_path : List ViewId) (msg : Message) (app_state : State)
    (sched : List Fut) : VS × State × List Fut :=
  match MapAction.message impl self vs id_path msg app_state with
  | (.action fut, vs', s') => (vs', s', sched ++ [fut])
  | (.nop, vs', s') => (vs', s', sched)
  | (.stale _, vs', s') => (vs', s', sched)

/-- Modelled from the spec: completion of one deferred unit. When the unit
completes (the external scheduler's `run` produces its output), the output
passes through the purely synchronous `callback_fn`, converting it into
exactly one parent action. -/
def completeUnit (run : Fut → FutureOutput)
    (callback_fn : State → FutureOutput → State × ParentAction)
    (s : State) (fut : Fut) : State × ParentAction :=
  callback_fn s (run fut)

/-- Modelled from the spec: draining the scheduler queue, delivering the
completions' parent actions in order. -/
def drainScheduler (run : Fut → FutureOutput)
    (callback_fn : State → FutureOutput → State × ParentAction) :
    State → List Fut → State × List ParentAction
  | s, [] => (s, [])
  | s, f :: rest =>
    let one := completeUnit run callback_fn s f
    let more := drainScheduler run callback_fn one.1 rest
    (more.1, one.2 :: more.2)

/-- Draining delivers exactly one parent action per queued deferred unit. -/
theorem drainScheduler_length (run : Fut → FutureOutput)
    (callback_fn : State → FutureOutput → State × ParentAction) :
    ∀ (s : State) (q : List Fut),
      (drainScheduler run callback_fn s q).2.length = q.length := by
  intro s q
  induction q generalizing s with
  | nil => rfl
  | cons f rest ih => simp [drainScheduler, ih]

end MapActionOps

section MapActionClaims

variable {State ParentAction ChildAction V FutureOutput Fut Ctx Message El VS : Type}

/-- Claim C1: when the child's message handling produces an action, the
synchronous `map_fn` is applied to it (mutating the app state to
`(map_fn s' a).1` and producing the deferred unit `(map_fn s' a).2`); a
dispatch hands exactly that one deferred unit to the externally supplied
scheduler queue — not awaited inline: `run` does not occur in the dispatch
— and produces no synchronous parent action. When a deferred unit later
completes, its output passes through the purely synchronous `callback_fn`,
yielding the parent action; draining the queue delivers exactly one parent
action per queued unit, so each dispatch that yielded a deferred unit
delivers exactly one parent action. -/
theorem claim_c1_async_dispatch_completion
    (impl : View V State ChildAction Ctx Message El VS)
    (self : MapAction State ParentAction ChildAction V FutureOutput Fut)
    (run : Fut → FutureOutput)
    (vs : VS) (id_path : List ViewId) (msg : Message) (app_state : State)
    (a : ChildAction) (vs' : VS) (s' : State)
    (h : impl.message self.child vs id_path msg app_state = (.action a, vs', s'))
    (sched : List Fut) :
    dispatchMapAction impl self vs id_path msg app_state sched =
      (vs', (self.map_fn s' a).1, sched ++ [(self.map_fn s' a).2]) ∧
    (∀ t, completeUnit run self.callback_fn t ((self.map_fn s' a).2) =
      self.callback_fn t (run ((self.map_fn s' a).2))) ∧
    (∀ (t : State) (q : List Fut),
      (drainScheduler run self.callback_fn t q).2.length = q.length) := by
  refine ⟨?_, fun t => rfl, fun t q => drainScheduler_length run self.callback_fn t q⟩
  simp [dispatchMapAction, MapAction.message, h, MessageResult.mapWithState]

/-- Claim C8: when the child's message handling returns the "fully
consumed, no action" signal or the "no matching target" signal, the mapping
function is not applied — the combinator returns the very same signal, the
same view state and the very application state the child call left behind,
adding no mutation of its own. -/
theorem claim_c8_signal_passthrough
    (impl : View V State ChildAction Ctx Message El VS)
    (self : MapAction State ParentAction ChildAction V FutureOutput Fut)
    (vs : VS) (id_path : List ViewId) (msg : Message) (app_state : State)
    (r : MessageResult ChildAction Message) (vs' : VS) (s' : State)
    (h : impl.message self.child vs id_path msg app_state = (r, vs', s')) :
    (r = .nop →
      MapAction.message impl self vs id_path msg app_state = (.nop, vs', s')) ∧
    (∀ m0, r = .stale m0 →
      MapAction.message impl self vs id_path msg app_state =
        (.stale m0, vs', s')) := by
  constructor
  · rintro rfl
    simp [MapAction.message, h, MessageResult.mapWithState]
  · rintro m0 rfl
    simp [MapAction.message, h, MessageResult.mapWithState]

/-- Claim C9: `build`, `rebuild` and `teardown` of the combinator are pure
pass-throughs to the child's corresponding operation on the child view
value with the same context and element; the combinator's retained
`ViewState` and `Element` are exactly the child's (the embedding uses the
child's `VS` and `El` unchanged, mirroring
`type ViewState = V::ViewState; type Element = V::Element`), so it holds
no retained state of its own. -/
theorem claim_c9_lifecycle_passthrough
    (impl : View V State ChildAction Ctx Message El VS)
    (self prev : MapAction State ParentAction ChildAction V FutureOutput Fut)
    (ctx : Ctx) (vs : VS) (el : El) :
    MapAction.build impl self ctx = impl.build self.child ctx ∧
    MapAction.rebuild impl self prev vs ctx el =
      impl.rebuild self.child prev.child vs ctx el ∧
    MapAction.teardown impl self vs ctx el =
      impl.teardown self.child vs ctx el :=
  ⟨rfl, rfl, rfl⟩

/-- Claim C10: the combinator is transparent to message addressing. Its
`build` performs exactly the child's `build` on the same context — it
appends no `ViewId` fragment of its own to the address path the context
tracks — and its `message` factors as a path-independent post-processing
of the child's `message` at the identical `id_path`: the address path a
descendant sees is the same with or without the wrapper. -/
theorem claim_c10_address_transparency
    (impl : View V State ChildAction Ctx Message El VS)
    (self : MapAction State ParentAction ChildAction V FutureOutput Fut) :
    (∀ ctx : Ctx, MapAction.build impl self ctx = impl.build self.child ctx) ∧
    (∃ post : MessageResult ChildAction Message × VS × State →
        MessageResult Fut Message × VS × State,
      ∀ (vs : VS) (id_path : List ViewId) (msg : Message) (app_state : State),
        MapAction.message impl self vs id_path msg app_state =
          post (impl.message self.child vs id_path msg app_state)) :=
  ⟨fun _ => rfl,
   ⟨fun r => ((MessageResult.mapWithState self.map_fn r.2.2 r.1).1, r.2.1,
      (MessageResult.mapWithState self.map_fn r.2.2 r.1).2),
    fun _ _ _ _ => rfl⟩⟩

end MapActionClaims

/-! ## Concrete witness instances for the combinator claims -/

def c1Impl : View Unit Nat Nat Unit Unit Unit Unit :=
  { build := fun _ c => (((), ()), c)
    rebuild := fun _ _ vs c e => (e, vs, c)
    teardown := fun _ vs c e => (vs, c, e)
    message := fun _ vs _ _ s => (.action 5, vs, s + 1) }

def c1Self : MapAction Nat Nat Nat Unit Nat Nat :=
  { map_fn := fun s a => (s + a, a * 2)
    callback_fn := fun s fo => (s + fo, fo + 1)
    child := () }

/-- Witness for C1 at a concrete instantiation (all payload types `Nat`):
the child's action 5 is mapped (state 1 becomes 6, the deferred unit is
10), the unit lands on the scheduler queue, and completion and drain
deliver exactly one parent action per unit. -/
theorem claim_c1_async_dispatch_completion_witness :
    dispatchMapAction c1Impl c1Self () [] () 0 [] = ((), 6, [10]) ∧
    (∀ t, completeUnit id c1Self.callback_fn t 10 =
      c1Self.callback_fn t (id 10)) ∧
    (∀ (t : Nat) (q : List Nat),
      (drainScheduler id c1Self.callback_fn t q).2.length = q.length) :=
  claim_c1_async_dispatch_completion c1Impl c1Self id () [] () 0 5 () 1
    (by rfl) []

def c8Impl : View Unit Nat Nat Unit Unit Unit Unit :=
  { build := fun _ c => (((), ()), c)
    rebuild := fun _ _ vs c e => (e, vs, c)
    teardown := fun _ vs c e => (vs, c, e)
    message := fun _ vs _ _ s => (.nop, vs, s + 1) }

def c8Self : MapAction Nat Nat Nat Unit Nat Nat :=
  { map_fn := fun s a => (s + a, a * 2)
    callback_fn := fun s fo => (s + fo, fo + 1)
    child := () }

/-- Witness for C8 at a concrete instantiation whose child fully consumes
the message (`nop`, state incremented by the child itself): the wrapper
returns `nop` with exactly the child's state. -/
theorem claim_c8_signal_passthrough_witness :
    ((MessageResult.nop : MessageResult Nat Unit) = .nop →
      MapAction.message c8Impl c8Self () [] () 0 = (.nop, (), 1)) ∧
    (∀ m0, (MessageResult.nop : MessageResult Nat Unit) = .stale m0 →
      MapAction.message c8Impl c8Self () [] () 0 = (.stale m0, (), 1)) :=
  claim_c8_signal_passthrough c8Impl c8Self () [] () 0 .nop () 1 (by rfl)
